import Mathlib

/-!
Verification of the A7-Vault client (a browser "encrypted vault" UI).

The development shallowly embeds the logic of the repository's client code:

* the client-side encryption framing, `encryptFile` / `decryptFile` /
  `convertWordArrayToUint8Array` of the current dashboard component
  (src/unnamed/part_000), together with the old CryptoJS-only
  `decryptFile` of src/components/dashboard-view.tsx;
* the UI handlers (`handleFileUpload`, `handleDownload`, `handlePreview`,
  `handleDelete`, `fetchFiles`, `fetchProfile`) and the admin-panel
  handlers (`updateUserStatus`, `deleteUser`) as pure functions from their
  inputs and the outcomes of the external backend calls to a record of the
  observable effects they perform (toasts, alerts, console messages,
  storage calls, log inserts);
* the dashboard's render gating and the admin panel's per-row actions.

Bytes are modelled as `Nat` (each < 256 where produced by the code), byte
buffers as `List Nat`, and machine 32-bit words as `Nat` reduced mod 2^32
at the points where the JavaScript bitwise operators would truncate.

The AES-GCM primitive of the Web Crypto API and the CryptoJS AES cipher
are external libraries, not code of this repository; they enter the
embedding as parameters (`GCM`, and the `cjsDecrypt` function argument).
A thrown exception of an external call is modelled as `Option.none` /
an explicit error argument.
-/

namespace A7Vault

/-- The Web Crypto AES-GCM primitive, abstracted: `encrypt key iv plaintext`
returns the ciphertext (tag included), `decrypt key iv ciphertext` returns
`some` plaintext or `none` when the library call throws (bad tag, bad
framing). The repository only calls these; it does not implement them. -/
structure GCM where
  encrypt : List Nat → List Nat → List Nat → List Nat
  decrypt : List Nat → List Nat → List Nat → Option (List Nat)

/-- A CryptoJS `WordArray`: a list of 32-bit words plus the significant byte
count, exactly the two fields `convertWordArrayToUint8Array` reads. -/
structure WordArray where
  words : List Nat
  sigBytes : Nat
  deriving DecidableEq

/-- The four bytes one loop iteration of `convertWordArrayToUint8Array`
extracts from a word: `(word >> 24) & 0xff`, `(word >> 16) & 0xff`,
`(word >> 8) & 0xff`, `word & 0xff`. A CryptoJS word is a JavaScript
number acting as a 32-bit integer under the bitwise operators, so the
word is reduced mod 2^32 first; the shift-and-mask results agree with the
signed JavaScript semantics on that representative. -/
def wordToBytes (word : Nat) : List Nat :=
  let v := word % 4294967296
  [(v >>> 24) &&& 255, (v >>> 16) &&& 255, (v >>> 8) &&& 255, v &&& 255]

/-- The write loop of `convertWordArrayToUint8Array` over the stream of
extracted bytes: the target `Uint8Array(len)` is zero-filled at allocation,
and each byte is written only under the guard `offset < len`, after which
`offset` advances. Cells never written keep the value 0. -/
def fillBytes (len : Nat) : Nat → List Nat → List Nat
  | offset, [] => List.replicate (len - offset) 0
  | offset, b :: rest =>
      if offset < len then b :: fillBytes len (offset + 1) rest else []

/-- `convertWordArrayToUint8Array` of src/unnamed/part_000 lines 175-191
(the identical copy in src/components/dashboard-view.tsx lines 128-144):
serialize a CryptoJS WordArray into `sigBytes` bytes, reading the words
big-endian first and guarding every write by `offset < len`. -/
def convertWordArrayToUint8Array (wordArray : WordArray) : List Nat :=
  fillBytes wordArray.sigBytes 0 (wordArray.words.flatMap wordToBytes)

/-- The 10 ASCII bytes of the string `U2FsdGVkX1`, the base64 rendering of
the CryptoJS `Salted__` header that marks a legacy-format blob. -/
def legacySignature : List Nat := [85, 50, 70, 115, 100, 71, 86, 107, 88, 49]

/-- `encryptFile` of src/unnamed/part_000 lines 123-137: AES-GCM-encrypt
the file bytes under the derived key with a fresh 12-byte IV and return the
blob `IV ++ ciphertext` (the `new Blob([iv, encryptedBuffer])` framing).
The random IV is a parameter here. -/
def encryptFile (g : GCM) (key iv fileBytes : List Nat) : List Nat :=
  iv ++ g.encrypt key iv fileBytes

/-- `decryptFile` of src/unnamed/part_000 lines 139-173. `cjsDecrypt`
models the legacy path `CryptoJS.AES.decrypt(await blob.text(), key)`,
taking the blob bytes and the key to the resulting WordArray. The source
first compares the string of the blob's first 10 bytes with the legacy
signature and throws when they match; that throw, and a throw out of
`crypto.subtle.decrypt` (modelled as `none`), are both caught by the
single catch that runs the legacy CryptoJS path. -/
def decryptFile (g : GCM) (cjsDecrypt : List Nat → List Nat → WordArray)
    (key blob : List Nat) : List Nat :=
  if blob.take 10 = legacySignature then
    convertWordArrayToUint8Array (cjsDecrypt blob key)
  else
    match g.decrypt key (blob.take 12) (blob.drop 12) with
    | some plain => plain
    | none => convertWordArrayToUint8Array (cjsDecrypt blob key)

/-- Which of the two branches of `decryptFile` produces the result. -/
inductive DecPath where
  | modern
  | legacy
  deriving DecidableEq

/-- The branch `decryptFile` takes, read off the same control flow:
the legacy branch on a signature match or a failed AES-GCM call, the
modern branch on a successful AES-GCM call. -/
def decryptPathTaken (g : GCM) (key blob : List Nat) : DecPath :=
  if blob.take 10 = legacySignature then DecPath.legacy
  else
    match g.decrypt key (blob.take 12) (blob.drop 12) with
    | some _ => DecPath.modern
    | none => DecPath.legacy

/-- The old `decryptFile` of src/components/dashboard-view.tsx lines
121-126: unconditionally run CryptoJS AES decryption on the blob's text
and serialize the resulting WordArray. -/
def oldDecryptFile (cjsDecrypt : List Nat → List Nat → WordArray)
    (key blob : List Nat) : List Nat :=
  convertWordArrayToUint8Array (cjsDecrypt blob key)

/-- A degenerate but contract-satisfying AES-GCM instance, used to
instantiate the abstract primitive on concrete inputs. -/
def gcmId : GCM where
  encrypt := fun _ _ plaintext => plaintext
  decrypt := fun _ _ ciphertext => some ciphertext

/-- A degenerate CryptoJS decryption, returning the empty WordArray. -/
def cjsZero : List Nat → List Nat → WordArray := fun _ _ => ⟨[], 0⟩

/-- The big-endian 4-byte encoding of a 32-bit value: the spec-side
reference the serialization claim compares `wordToBytes` against. -/
def bigEndian4 (v : Nat) : List Nat :=
  [v / 16777216 % 256, v / 65536 % 256, v / 256 % 256, v % 256]

theorem and_255_eq_mod (n : Nat) : n &&& 255 = n % 256 := by
  have h := Nat.and_pow_two_sub_one_eq_mod n 8
  norm_num at h
  exact h

theorem wordToBytes_eq_bigEndian4 (w : Nat) :
    wordToBytes w = bigEndian4 (w % 4294967296) := by
  unfold wordToBytes bigEndian4
  simp only [Nat.shiftRight_eq_div_pow, and_255_eq_mod]

theorem fillBytes_length (bs : List Nat) :
    ∀ len offset, (fillBytes len offset bs).length = len - offset := by
  induction bs with
  | nil => intro len offset; simp [fillBytes]
  | cons b rest ih =>
    intro len offset
    by_cases h : offset < len
    · simp only [fillBytes, if_pos h, List.length_cons, ih]
      omega
    · simp only [fillBytes, if_neg h, List.length_nil]
      omega

theorem fillBytes_eq_take (bs : List Nat) :
    ∀ len offset, len ≤ offset + bs.length →
      fillBytes len offset bs = bs.take (len - offset) := by
  induction bs with
  | nil =>
    intro len offset h
    have h0 : len - offset = 0 := by simp at h; omega
    simp [fillBytes, h0]
  | cons b rest ih =>
    intro len offset h
    by_cases hlt : offset < len
    · have h2 : len ≤ (offset + 1) + rest.length := by
        simp at h; omega
      have hs : len - offset = (len - (offset + 1)) + 1 := by omega
      simp only [fillBytes, if_pos hlt, ih _ _ h2, hs, List.take_succ_cons]
    · have h0 : len - offset = 0 := by omega
      simp [fillBytes, hlt, h0]

theorem bind_wordToBytes_length (ws : List Nat) :
    (ws.flatMap wordToBytes).length = 4 * ws.length := by
  induction ws with
  | nil => simp
  | cons w rest ih =>
    simp only [List.flatMap_cons, List.length_append, ih, List.length_cons]
    simp [wordToBytes]
    omega

theorem bind_wordToBytes_eq_join (ws : List Nat) :
    ws.flatMap wordToBytes
      = (ws.map (fun w => bigEndian4 (w % 4294967296))).flatten := by
  induction ws with
  | nil => simp
  | cons w rest ih =>
    simp [List.flatMap_cons, ih, wordToBytes_eq_bigEndian4]

/-- C10. `convertWordArrayToUint8Array` is a correct big-endian
serialization of a CryptoJS WordArray: the result always has length
`sigBytes`, and whenever `sigBytes ≤ 4 * words.length` it equals the first
`sigBytes` bytes of the concatenation of the big-endian 4-byte encodings
of the words (each taken as a 32-bit value). -/
theorem wordarray_serialization (wa : WordArray) :
    (convertWordArrayToUint8Array wa).length = wa.sigBytes
    ∧ (wa.sigBytes ≤ 4 * wa.words.length →
        convertWordArrayToUint8Array wa
          = ((wa.words.map (fun w => bigEndian4 (w % 4294967296))).flatten).take
              wa.sigBytes) := by
  constructor
  · simpa using fillBytes_length (wa.words.flatMap wordToBytes) wa.sigBytes 0
  · intro hle
    have hlen : wa.sigBytes ≤ 0 + (wa.words.flatMap wordToBytes).length := by
      rw [bind_wordToBytes_length]; omega
    have h := fillBytes_eq_take (wa.words.flatMap wordToBytes) wa.sigBytes 0 hlen
    simpa [convertWordArrayToUint8Array, bind_wordToBytes_eq_join] using h

/-- C2. The encrypted-blob layout is a 12-byte IV followed by the AES-GCM
ciphertext: `encryptFile` puts the IV in bytes 0..11 and the ciphertext in
bytes 12.., and `decryptFile` parses a non-legacy blob by handing bytes
0..11 to AES-GCM as the IV and bytes 12.. as the ciphertext. -/
theorem encrypted_blob_layout :
    (∀ (g : GCM) (key iv fileBytes : List Nat), iv.length = 12 →
        (encryptFile g key iv fileBytes).take 12 = iv
        ∧ (encryptFile g key iv fileBytes).drop 12 = g.encrypt key iv fileBytes)
    ∧ (∀ (g : GCM) (cjsDecrypt : List Nat → List Nat → WordArray)
        (key blob plain : List Nat),
        blob.take 10 ≠ legacySignature →
        g.decrypt key (blob.take 12) (blob.drop 12) = some plain →
        decryptFile g cjsDecrypt key blob = plain) := by
  constructor
  · intro g key iv fileBytes hlen
    exact ⟨List.take_left' hlen, List.drop_left' hlen⟩
  · intro g cjsDecrypt key blob plain hsig hdec
    simp [decryptFile, hsig, hdec]

/-- C3. `decryptFile` is a two-branch decision: the legacy CryptoJS path is
taken exactly when the blob's first 10 bytes are the legacy signature or
the AES-GCM decryption fails; on the legacy branch the result is the
CryptoJS decryption, on the modern branch it is the AES-GCM plaintext. -/
theorem decrypt_two_branch_decision (g : GCM)
    (cjsDecrypt : List Nat → List Nat → WordArray) (key blob : List Nat) :
    (decryptPathTaken g key blob = DecPath.legacy ↔
      (blob.take 10 = legacySignature
        ∨ g.decrypt key (blob.take 12) (blob.drop 12) = none))
    ∧ (decryptPathTaken g key blob = DecPath.legacy →
        decryptFile g cjsDecrypt key blob
          = convertWordArrayToUint8Array (cjsDecrypt blob key))
    ∧ (decryptPathTaken g key blob = DecPath.modern →
        g.decrypt key (blob.take 12) (blob.drop 12)
          = some (decryptFile g cjsDecrypt key blob)) := by
  by_cases hsig : blob.take 10 = legacySignature
  · simp [decryptPathTaken, decryptFile, hsig]
  · cases hdec : g.decrypt key (blob.take 12) (blob.drop 12) with
    | some plain => simp [decryptPathTaken, decryptFile, hsig, hdec]
    | none => simp [decryptPathTaken, decryptFile, hsig, hdec]

/-- C1 (counterexample). The round-trip claim fails as stated: a valid
12-byte IV that happens to begin with the 10 legacy-signature bytes makes
the encrypted blob start with `U2FsdGVkX1`, so `decryptFile` takes the
legacy CryptoJS branch and does not return the original bytes, even though
the AES-GCM instance decrypts its own ciphertexts perfectly. -/
theorem decrypt_encrypt_roundtrip_cex :
    (legacySignature ++ [48, 48]).length = 12
    ∧ decryptFile gcmId cjsZero []
        (encryptFile gcmId [] (legacySignature ++ [48, 48]) [1]) ≠ [1] := by
  constructor
  · decide
  · decide

/-- C1 (amended). Decrypting the output of the client-side encryption with
the same key recovers the original file content, provided the 12-byte IV
does not begin with the 10 legacy-signature bytes `U2FsdGVkX1` (the
signature check in `decryptFile` would otherwise divert the blob to the
legacy path): for every AES-GCM instance that inverts its own encryption
on this key and IV, `decryptFile (encryptFile fileBytes)` returns exactly
`fileBytes`. -/
theorem decrypt_encrypt_roundtrip (g : GCM)
    (cjsDecrypt : List Nat → List Nat → WordArray)
    (key iv fileBytes : List Nat)
    (hlen : iv.length = 12)
    (hsig : iv.take 10 ≠ legacySignature)
    (hgcm : g.decrypt key iv (g.encrypt key iv fileBytes) = some fileBytes) :
    decryptFile g cjsDecrypt key (encryptFile g key iv fileBytes)
      = fileBytes := by
  have h10 : (iv ++ g.encrypt key iv fileBytes).take 10 = iv.take 10 := by
    rw [List.take_append_of_le_length (by omega)]
  unfold encryptFile decryptFile
  rw [h10, if_neg hsig, List.take_left' hlen, List.drop_left' hlen, hgcm]

/-- C1 (witness). The amended round-trip theorem at a concrete input: the
all-zero 12-byte IV, key `[]` and file `[1, 2, 3]`. -/
theorem decrypt_encrypt_roundtrip_witness :
    decryptFile gcmId cjsZero []
      (encryptFile gcmId [] (List.replicate 12 0) [1, 2, 3]) = [1, 2, 3] :=
  decrypt_encrypt_roundtrip gcmId cjsZero [] (List.replicate 12 0) [1, 2, 3]
    (by decide) (by decide) rfl

/-- C4. Compatibility with previously uploaded legacy-format files: on any
blob whose first 10 bytes are the legacy signature, the current
`decryptFile` returns exactly what the old CryptoJS-only `decryptFile` of
dashboard-view.tsx returns on the same blob and key. -/
theorem legacy_blob_refinement (g : GCM)
    (cjsDecrypt : List Nat → List Nat → WordArray) (key blob : List Nat)
    (hsig : blob.take 10 = legacySignature) :
    decryptFile g cjsDecrypt key blob = oldDecryptFile cjsDecrypt key blob := by
  simp [decryptFile, oldDecryptFile, hsig]

/-- C4 (witness). The refinement theorem at a concrete legacy blob: the
signature bytes themselves. -/
theorem legacy_blob_refinement_witness :
    decryptFile gcmId cjsZero [] legacySignature
      = oldDecryptFile cjsZero [] legacySignature :=
  legacy_blob_refinement gcmId cjsZero [] legacySignature (by decide)

/-- Kind of a transient toast (`showToast` takes `success` or `error`). -/
inductive ToastKind where
  | success
  | error
  deriving DecidableEq

/-- One toast shown by `showToast(type, message)`. -/
structure Toast where
  kind : ToastKind
  message : String
  deriving DecidableEq

/-- The observable effects of one handler invocation: the user-facing
surfaces (toasts, blocking browser alerts, console messages) and the
backend calls issued (paths of storage upload / download / remove / list
calls, profile selects and updates, RPC calls, access-log inserts), plus
how often the encryption routine was entered and whether the handler let
an exception escape. Handlers that do not touch a field leave its default. -/
structure HandlerOutcome where
  toasts : List Toast := []
  alerts : List String := []
  consoleErrors : List String := []
  storageUploads : List String := []
  storageDownloads : List String := []
  storageRemovals : List String := []
  storageLists : List String := []
  profileSelects : Nat := 0
  profileUpdates : List (String × String) := []
  rpcCalls : List String := []
  logInserts : List (String × String) := []
  encryptCalls : Nat := 0
  threw : Bool := false
  deriving DecidableEq

/-- The upload size limit of src/unnamed/part_000 line 195. -/
def MAX_FILE_SIZE : Nat := 50 * 1024 * 1024

/-- `handleFileUpload` of src/unnamed/part_000 lines 197-241, as a function
from the signed-in user, the file's name and size, and the fates of the two
fallible calls (`encryptFile` throwing, the storage upload returning an
error) to the effects performed. The size-limit toast's interpolated
`formatSize` fragment is elided from the message; the `fetchFiles()`
refresh after a successful upload is the separately modelled `fetchFiles`.
Every failure path ends in the single catch that shows an error toast, so
no branch sets `threw`. -/
def handleFileUpload (user : Option String) (fileName : String)
    (fileSize : Nat) (encryptThrows : Bool) (uploadError : Option String) :
    HandlerOutcome :=
  match user with
  | none => {}
  | some uid =>
    if fileSize > MAX_FILE_SIZE then
      { toasts := [⟨ToastKind.error,
          "File too large. Limit is 50MB for browser encryption."⟩] }
    else if encryptThrows then
      { toasts := [⟨ToastKind.success, "Processing encryption..."⟩,
          ⟨ToastKind.error,
            "Phone ran out of memory during encryption. Try a smaller file."⟩],
        consoleErrors := ["Encryption Memory Error", "Upload failed:"],
        encryptCalls := 1 }
    else
      match uploadError with
      | some msg =>
        { toasts := [⟨ToastKind.success, "Processing encryption..."⟩,
            ⟨ToastKind.error,
              if msg.isEmpty then "Upload failed. Try a smaller file."
              else msg⟩],
          consoleErrors := ["Upload failed:"],
          encryptCalls := 1,
          storageUploads := [uid ++ "/" ++ fileName] }
      | none =>
        { toasts := [⟨ToastKind.success, "Processing encryption..."⟩,
            ⟨ToastKind.success, "Encrypted & Uploaded " ++ fileName⟩],
          encryptCalls := 1,
          storageUploads := [uid ++ "/" ++ fileName],
          logInserts := [("UPLOAD", fileName)] }

/-- `handleDownload` of src/unnamed/part_000 lines 317-347: download the
object at `userId/fileName`; a storage error reaches the outer catch and
becomes an error toast (falling back to "Download failed" on an empty
message, the `error.message || ...` pattern); a decryption failure is
caught by the inner try and only logged to the console, after which the
raw blob is still offered and the download is logged. -/
def handleDownload (uid fileName : String) (downloadError : Option String)
    (decryptThrows : Bool) : HandlerOutcome :=
  match downloadError with
  | some msg =>
    { storageDownloads := [uid ++ "/" ++ fileName],
      consoleErrors := ["Download Error"],
      toasts := [⟨ToastKind.error,
        if msg.isEmpty then "Download failed" else msg⟩] }
  | none =>
    if decryptThrows then
      { storageDownloads := [uid ++ "/" ++ fileName],
        consoleErrors := ["Decryption failed"],
        logInserts := [("DOWNLOAD", fileName)] }
    else
      { storageDownloads := [uid ++ "/" ++ fileName],
        toasts := [⟨ToastKind.success, "File Decrypted Successfully"⟩],
        logInserts := [("DOWNLOAD", fileName)] }

/-- `handlePreview` of src/unnamed/part_000 lines 244-285: download the
object at `userId/fileName`; a storage error becomes the fixed error toast
"Failed to load preview"; a decryption failure is caught by the inner try
and only logged, the encrypted blob being previewed as-is. -/
def handlePreview (uid fileName : String) (downloadError : Option String)
    (decryptThrows : Bool) : HandlerOutcome :=
  match downloadError with
  | some _ =>
    { storageDownloads := [uid ++ "/" ++ fileName],
      consoleErrors := ["Preview Error"],
      toasts := [⟨ToastKind.error, "Failed to load preview"⟩] }
  | none =>
    if decryptThrows then
      { storageDownloads := [uid ++ "/" ++ fileName],
        consoleErrors := ["Decryption failed for preview"] }
    else
      { storageDownloads := [uid ++ "/" ++ fileName] }

/-- `handleDelete` of src/unnamed/part_000 lines 349-364: after the
`confirm(...)` dialog (declined means an early return with no effects),
remove the object at `userId/fileName`; an error becomes an error toast
with the backend's message, success logs the deletion, shows a success
toast and refreshes the list (`fetchFiles`, modelled separately). -/
def handleDelete (uid fileName : String) (confirmOk : Bool)
    (removeError : Option String) : HandlerOutcome :=
  if confirmOk then
    match removeError with
    | some msg =>
      { storageRemovals := [uid ++ "/" ++ fileName],
        toasts := [⟨ToastKind.error, msg⟩] }
    | none =>
      { storageRemovals := [uid ++ "/" ++ fileName],
        logInserts := [("DELETE", fileName)],
        toasts := [⟨ToastKind.success, "File deleted"⟩] }
  else {}

/-- `fetchFiles` of src/unnamed/part_000 lines 91-109: list the bucket
under the folder `userId/`; an error is only written to the console. -/
def fetchFiles (uid : String) (listError : Option String) : HandlerOutcome :=
  match listError with
  | some msg =>
    { storageLists := [uid ++ "/"],
      consoleErrors := ["Error fetching files: " ++ msg] }
  | none => { storageLists := [uid ++ "/"] }

/-- `fetchProfile` of src/unnamed/part_000 lines 50-69: with no user it
returns at once; otherwise it selects the profile row. `result` is the
query's fate: an error message, or the fetched status. An error is only
written to the console; a fetched `approved` status shows the welcome
toast. -/
def fetchProfile (user : Option String) (result : Except String String) :
    HandlerOutcome :=
  match user with
  | none => {}
  | some _ =>
    match result with
    | Except.error msg =>
      { profileSelects := 1,
        consoleErrors := ["Error fetching profile: " ++ msg] }
    | Except.ok status =>
      if status = "approved" then
        { profileSelects := 1,
          toasts := [⟨ToastKind.success, "Profile Approved! Welcome."⟩] }
      else { profileSelects := 1 }

/-- A profile row of the admin panel (src/components/admin-panel.tsx). -/
structure Profile where
  id : String
  email : String
  role : String
  status : String
  deriving DecidableEq

/-- The `setUsers(users.map(...))` local update of `updateUserStatus`
(src/components/admin-panel.tsx line 53): set the status of the rows with
the given id, leave every other row as it was. -/
def applyStatusUpdate (users : List Profile) (userId newStatus : String) :
    List Profile :=
  users.map fun u => if u.id = userId then { u with status := newStatus } else u

/-- `updateUserStatus` of src/components/admin-panel.tsx lines 43-60:
update the row's status in the backend; an error is written to the console
and surfaced as the blocking alert "Failed to update status" (no toast,
no rethrow); success applies the same update to the local list. -/
def updateUserStatus (users : List Profile) (userId newStatus : String)
    (updateError : Option String) : HandlerOutcome × List Profile :=
  match updateError with
  | some msg =>
    ({ profileUpdates := [(userId, newStatus)],
       consoleErrors := ["Error updating status: " ++ msg],
       alerts := ["Failed to update status"] }, users)
  | none =>
    ({ profileUpdates := [(userId, newStatus)] },
     applyStatusUpdate users userId newStatus)

/-- `deleteUser` of src/components/admin-panel.tsx lines 62-77: after the
confirmation dialog, call the `delete_user_by_admin` RPC; an error is
written to the console and surfaced as a blocking alert; success drops the
row from the local list. -/
def deleteUser (users : List Profile) (userId : String) (confirmOk : Bool)
    (rpcError : Option String) : HandlerOutcome × List Profile :=
  if confirmOk then
    match rpcError with
    | some msg =>
      ({ rpcCalls := ["delete_user_by_admin"],
         consoleErrors := ["Error deleting user: " ++ msg],
         alerts := ["Error deleting user: " ++ msg] }, users)
    | none =>
      ({ rpcCalls := ["delete_user_by_admin"] },
       users.filter fun u => u.id ≠ userId)
  else ({}, users)

/-- The status actions the admin panel renders for one row
(src/components/admin-panel.tsx lines 201-222): the whole action group only
for non-admin rows, and the Approve / Reject pair only when the row's
status is `pending`. -/
def rowStatusActions (u : Profile) : List String :=
  if u.role ≠ "admin" then
    if u.status = "pending" then ["approved", "rejected"] else []
  else []

/-- The dashboard profile as DashboardView holds it (role and status). -/
structure UserProfile where
  role : String
  status : String
  deriving DecidableEq

/-- The four full-screen states DashboardView can render. -/
inductive Screen where
  | verifying
  | pendingApproval
  | accessDenied
  | vault
  deriving DecidableEq

/-- The render gating of DashboardView (src/unnamed/part_000 lines
392-455): the loading spinner while the profile loads, the pending screen
when the profile is absent or `pending`, the denied screen when
`rejected`, and the vault otherwise. -/
def renderDashboard (loadingProfile : Bool) (profile : Option UserProfile) :
    Screen :=
  if loadingProfile then Screen.verifying
  else
    match profile with
    | none => Screen.pendingApproval
    | some p =>
      if p.status = "pending" then Screen.pendingApproval
      else if p.status = "rejected" then Screen.accessDenied
      else Screen.vault

/-- The effect guard of src/unnamed/part_000 lines 111-113: `fetchFiles`
runs only when a user is signed in and the profile status is `approved`. -/
def shouldFetchFiles (user : Option String) (profile : Option UserProfile) :
    Bool :=
  user.isSome &&
    match profile with
    | some p => p.status == "approved"
    | none => false

/-- C5 (counterexample). Not every backend error is surfaced as a toast:
a failing profile select in `fetchProfile` is caught but only written to
the console, and the user sees no toast at all. -/
theorem error_surfacing_cex :
    (fetchProfile (some "u1") (Except.error "boom")).toasts = []
    ∧ (fetchProfile (some "u1") (Except.error "boom")).consoleErrors
        = ["Error fetching profile: boom"] := by
  exact ⟨rfl, rfl⟩

/-- C5 (amended). Every backend or cryptographic error is caught at its
call site and the handler terminates normally, never rethrowing and never
retrying the call (each backend call is issued at most once per
invocation); but the surfacing differs by call site: storage upload,
download and delete errors become a transient error toast, admin-action
errors (both the status update and the user delete) become a blocking
browser alert with no toast, profile-fetch and file-list errors are only
written to the console with no toast, and a decryption failure during
download or preview is caught by the inner try and only written to the
console, with no error toast. -/
theorem error_surfacing_amended :
    (∀ user fileName fileSize encryptThrows uploadError,
      (handleFileUpload user fileName fileSize encryptThrows
        uploadError).threw = false
      ∧ (handleFileUpload user fileName fileSize encryptThrows
          uploadError).storageUploads.length ≤ 1)
    ∧ (∀ uid fileName downloadError decryptThrows,
      (handleDownload uid fileName downloadError decryptThrows).threw = false
      ∧ (handleDownload uid fileName downloadError
          decryptThrows).storageDownloads.length ≤ 1)
    ∧ (∀ uid fileName confirmOk removeError,
      (handleDelete uid fileName confirmOk removeError).threw = false
      ∧ (handleDelete uid fileName confirmOk
          removeError).storageRemovals.length ≤ 1)
    ∧ (∀ uid listError,
      (fetchFiles uid listError).threw = false
      ∧ (fetchFiles uid listError).storageLists.length ≤ 1)
    ∧ (∀ user result,
      (fetchProfile user result).threw = false
      ∧ (fetchProfile user result).profileSelects ≤ 1)
    ∧ (∀ users userId newStatus updateError,
      (updateUserStatus users userId newStatus updateError).1.threw = false
      ∧ (updateUserStatus users userId newStatus
          updateError).1.profileUpdates.length ≤ 1)
    ∧ (∀ users userId confirmOk rpcError,
      (deleteUser users userId confirmOk rpcError).1.threw = false
      ∧ (deleteUser users userId confirmOk rpcError).1.rpcCalls.length ≤ 1)
    ∧ (∀ uid fileName fileSize msg, fileSize ≤ MAX_FILE_SIZE →
      (handleFileUpload (some uid) fileName fileSize false (some msg)).toasts
        = [⟨ToastKind.success, "Processing encryption..."⟩,
           ⟨ToastKind.error,
             if msg.isEmpty then "Upload failed. Try a smaller file."
             else msg⟩])
    ∧ (∀ uid fileName msg decryptThrows,
      (handleDownload uid fileName (some msg) decryptThrows).toasts
        = [⟨ToastKind.error, if msg.isEmpty then "Download failed" else msg⟩])
    ∧ (∀ uid fileName msg,
      (handleDelete uid fileName true (some msg)).toasts
        = [⟨ToastKind.error, msg⟩])
    ∧ (∀ uid msg, (fetchProfile (some uid) (Except.error msg)).toasts = [])
    ∧ (∀ uid msg, (fetchFiles uid (some msg)).toasts = [])
    ∧ (∀ users userId newStatus msg,
      (updateUserStatus users userId newStatus (some msg)).1.toasts = []
      ∧ (updateUserStatus users userId newStatus (some msg)).1.alerts
          = ["Failed to update status"])
    ∧ (∀ users userId msg,
      (deleteUser users userId true (some msg)).1.toasts = []
      ∧ (deleteUser users userId true (some msg)).1.alerts
          = ["Error deleting user: " ++ msg])
    ∧ (∀ uid fileName,
      (handleDownload uid fileName none true).toasts = []
      ∧ (handleDownload uid fileName none true).consoleErrors
          = ["Decryption failed"])
    ∧ (∀ uid fileName,
      (handlePreview uid fileName none true).toasts = []
      ∧ (handlePreview uid fileName none true).consoleErrors
          = ["Decryption failed for preview"]) := by
  refine ⟨?_, ?_, ?_, ?_, ?_, ?_, ?_, ?_, ?_, ?_, ?_, ?_, ?_, ?_, ?_, ?_⟩
  · intro user fileName fileSize encryptThrows uploadError
    rcases user with _ | uid
    · simp [handleFileUpload]
    · rcases uploadError with _ | msg <;> rcases encryptThrows with _ | _ <;>
        by_cases h : fileSize > MAX_FILE_SIZE <;> simp [handleFileUpload, h]
  · intro uid fileName downloadError decryptThrows
    rcases downloadError with _ | msg <;> rcases decryptThrows with _ | _ <;>
      simp [handleDownload]
  · intro uid fileName confirmOk removeError
    rcases removeError with _ | msg <;> rcases confirmOk with _ | _ <;>
      simp [handleDelete]
  · intro uid listError
    rcases listError with _ | msg <;> simp [fetchFiles]
  · intro user result
    rcases user with _ | uid
    · simp [fetchProfile]
    · rcases result with msg | status
      · simp [fetchProfile]
      · by_cases h : status = "approved" <;> simp [fetchProfile, h]
  · intro users userId newStatus updateError
    rcases updateError with _ | msg <;> simp [updateUserStatus]
  · intro users userId confirmOk rpcError
    rcases rpcError with _ | msg <;> rcases confirmOk with _ | _ <;>
      simp [deleteUser]
  · intro uid fileName fileSize msg hle
    have h : ¬ fileSize > MAX_FILE_SIZE := by omega
    simp [handleFileUpload, h]
  · intro uid fileName msg decryptThrows
    simp [handleDownload]
  · intro uid fileName msg
    simp [handleDelete]
  · intro uid msg
    simp [fetchProfile]
  · intro uid msg
    simp [fetchFiles]
  · intro users userId newStatus msg
    simp [updateUserStatus]
  · intro users userId msg
    simp [deleteUser]
  · intro uid fileName
    simp [handleDownload]
  · intro uid fileName
    simp [handlePreview]

/-- C6. The admin panel offers the Approve / Reject actions only for a
non-admin row whose status is `pending`, and applying the resulting update
moves exactly that user from `pending` to `approved` or `rejected`: in the
updated list every row is either the target with its new status or an
untouched row of a different user. -/
theorem admin_status_transitions (p : Profile) (a : String)
    (users : List Profile) (ha : a ∈ rowStatusActions p)
    (huniq : ∀ q ∈ users, q.id = p.id → q = p) :
    p.status = "pending" ∧ (a = "approved" ∨ a = "rejected")
    ∧ ∀ u ∈ applyStatusUpdate users p.id a,
        u = { p with status := a } ∨ (u ∈ users ∧ u.id ≠ p.id) := by
  unfold rowStatusActions at ha
  split_ifs at ha with h1 h2
  · simp only [List.mem_cons, List.not_mem_nil, or_false] at ha
    refine ⟨h2, ha, ?_⟩
    intro u hu
    unfold applyStatusUpdate at hu
    obtain ⟨v, hv, rfl⟩ := List.mem_map.1 hu
    by_cases hid : v.id = p.id
    · have hvp : v = p := huniq v hv hid
      subst hvp
      left
      simp [hid]
    · right
      simp only [if_neg hid]
      exact ⟨hv, hid⟩
  · simp at ha
  · simp at ha

/-- A concrete pending non-admin profile row used by the C6 witness. -/
def sampleUser : Profile := ⟨"u1", "u1@vault.example", "user", "pending"⟩

/-- C6 (witness). The transition theorem at a concrete row: approving the
single pending user `u1`. -/
theorem admin_status_transitions_witness :
    sampleUser.status = "pending"
    ∧ ("approved" = "approved" ∨ "approved" = "rejected")
    ∧ ∀ u ∈ applyStatusUpdate [sampleUser] sampleUser.id "approved",
        u = { sampleUser with status := "approved" }
        ∨ (u ∈ [sampleUser] ∧ u.id ≠ sampleUser.id) :=
  admin_status_transitions sampleUser "approved" [sampleUser]
    (by decide) (by decide)

/-- C7. Every storage path the client constructs is scoped under the
user's identifier: the upload, download, preview and delete handlers only
ever address the object `userId/fileName`, and the file list only ever
lists the folder `userId/`. -/
theorem storage_paths_user_scoped (uid fileName : String) (fileSize : Nat)
    (encryptThrows decryptThrows confirmOk : Bool)
    (uploadError downloadError removeError listError : Option String) :
    (∀ q ∈ (handleFileUpload (some uid) fileName fileSize encryptThrows
        uploadError).storageUploads, q = uid ++ "/" ++ fileName)
    ∧ (∀ q ∈ (handleDownload uid fileName downloadError
        decryptThrows).storageDownloads, q = uid ++ "/" ++ fileName)
    ∧ (∀ q ∈ (handlePreview uid fileName downloadError
        decryptThrows).storageDownloads, q = uid ++ "/" ++ fileName)
    ∧ (∀ q ∈ (handleDelete uid fileName confirmOk
        removeError).storageRemovals, q = uid ++ "/" ++ fileName)
    ∧ (∀ q ∈ (fetchFiles uid listError).storageLists, q = uid ++ "/") := by
  refine ⟨?_, ?_, ?_, ?_, ?_⟩
  · rcases uploadError with _ | msg <;> rcases encryptThrows with _ | _ <;>
      by_cases h : fileSize > MAX_FILE_SIZE <;> simp [handleFileUpload, h]
  · rcases downloadError with _ | msg <;> rcases decryptThrows with _ | _ <;>
      simp [handleDownload]
  · rcases downloadError with _ | msg <;> rcases decryptThrows with _ | _ <;>
      simp [handlePreview]
  · rcases removeError with _ | msg <;> rcases confirmOk with _ | _ <;>
      simp [handleDelete]
  · rcases listError with _ | msg <;> simp [fetchFiles]

/-- C8. The vault is reachable only after admin approval: an absent,
pending or rejected profile makes DashboardView render a blocking screen
in place of the vault UI, and the `fetchFiles` effect fires only when the
fetched profile's status is `approved`. -/
theorem vault_requires_approval (loadingProfile : Bool)
    (user : Option String) (profile : Option UserProfile) :
    (profile = none →
      renderDashboard loadingProfile profile ≠ Screen.vault)
    ∧ (∀ p, profile = some p →
        p.status = "pending" ∨ p.status = "rejected" →
        renderDashboard loadingProfile profile ≠ Screen.vault)
    ∧ (shouldFetchFiles user profile = true →
        ∃ p, profile = some p ∧ p.status = "approved") := by
  refine ⟨?_, ?_, ?_⟩
  · rintro rfl
    rcases loadingProfile with _ | _ <;> simp [renderDashboard]
  · rintro p rfl hstat
    rcases loadingProfile with _ | _
    · rcases hstat with h | h
      · simp [renderDashboard, h]
      · by_cases hp : p.status = "pending" <;> simp [renderDashboard, hp, h]
    · simp [renderDashboard]
  · intro h
    rcases user with _ | u <;> rcases profile with _ | p <;>
      simp [shouldFetchFiles] at h
    exact ⟨p, rfl, h⟩

/-- C9. Uploads are size-limited to 50MB: with a signed-in user, a file
over `50 * 1024 * 1024` bytes makes `handleFileUpload` show a single error
toast and return with no other effect at all (no encryption, no storage
upload, no log insert), while a file at or below the limit always passes
the size check and reaches the encryption step. -/
theorem upload_size_limit (uid fileName : String) (fileSize : Nat)
    (encryptThrows : Bool) (uploadError : Option String) :
    (fileSize > MAX_FILE_SIZE →
      handleFileUpload (some uid) fileName fileSize encryptThrows uploadError
        = { toasts := [⟨ToastKind.error,
            "File too large. Limit is 50MB for browser encryption."⟩] })
    ∧ (fileSize ≤ MAX_FILE_SIZE →
      (handleFileUpload (some uid) fileName fileSize encryptThrows
        uploadError).encryptCalls = 1) := by
  constructor
  · intro h
    simp [handleFileUpload, h]
  · intro hle
    have h : ¬ fileSize > MAX_FILE_SIZE := by omega
    rcases uploadError with _ | msg <;> rcases encryptThrows with _ | _ <;>
      simp [handleFileUpload, h]

end A7Vault
